import Mathlib

/-!
Shallow embedding of the 0DTE bull-put-spread backtester
(`backtester/option_utils.py`, `backtester/spread_selector.py`,
`backtester/backtester.py`).

Prices, deltas and timestamps are modelled as rationals (timestamps in
seconds).  The NumPy/SciPy externals used by the source — `norm.cdf`,
`np.exp`, `np.log`, `np.sqrt` and `scipy.optimize.brentq` — are not code
of this repository; they enter the embedding as an `Oracles` parameter,
so every theorem quantifies over the behaviour of those externals
(constraining them only by their documented contracts where a claim
needs it).  `brentq` returning `none` models the caught `ValueError`.
Fallible computations (the source returns `None`) are `Option`s.
-/

namespace Backtest

/-- The external numerical routines the source imports from NumPy/SciPy:
`scipy.stats.norm.cdf`, `np.exp`, `np.log`, `np.sqrt` and
`scipy.optimize.brentq` (with `none` standing for the `ValueError`
that `calculate_implied_volatility` catches). -/
structure Oracles where
  cdf : ℚ → ℚ
  exp : ℚ → ℚ
  log : ℚ → ℚ
  sqrt : ℚ → ℚ
  brentq : (ℚ → ℚ) → ℚ → ℚ → Option ℚ

/-- The option kind strings `'call'` / `'put'` used by the source. -/
inductive OptionType where
  | call
  | put
deriving DecidableEq, Repr

/-- One record of the timestamp-grouped historical option data consumed by
`find_spread` and `calculate_current_spread_metrics`: fields
`option_symbol`, `underlying_close` (absent models Python `None`),
`midpoint`, `strike_price`, `expiry`, `timestamp`. -/
structure Tick where
  option_symbol : String
  underlying_close : Option ℚ
  midpoint : ℚ
  strike_price : ℚ
  expiry : ℚ
  timestamp : ℚ
deriving DecidableEq, Repr

/-- `spread_selector.OptionLeg`. -/
structure OptionLeg where
  option_symbol : String
  strike_price : ℚ
  underlying_price : ℚ
  delta : ℚ
  option_price : ℚ
  timestamp : ℚ
  expiration_date : ℚ
deriving DecidableEq, Repr

/-- `spread_selector.SpreadLegs`. -/
structure SpreadLegs where
  short_leg : OptionLeg
  long_leg : OptionLeg
  credit_received : ℚ
  entry_timestamp : ℚ
  spread_width : ℚ
deriving DecidableEq, Repr

/-- `SpreadLegs.initial_total_delta`:
`abs(short_leg.delta) - abs(long_leg.delta)`. -/
def SpreadLegs.initial_total_delta (s : SpreadLegs) : ℚ :=
  |s.short_leg.delta| - |s.long_leg.delta|

/-- Intrinsic value computed in `calculate_implied_volatility`:
`max(0, (S - K) if option_type == 'call' else (K - S))`. -/
def intrinsicValue (ty : OptionType) (S K : ℚ) : ℚ :=
  max 0 (match ty with
    | .call => S - K
    | .put => K - S)

/-- The closure `option_price_diff` passed to `brentq` inside
`calculate_implied_volatility`: Black-Scholes price minus observed price,
as a function of sigma. -/
def option_price_diff (ors : Oracles) (S K T r : ℚ) (ty : OptionType)
    (option_price : ℚ) (sigma : ℚ) : ℚ :=
  let d1 := (ors.log (S / K) + (r + (1/2) * sigma ^ 2) * T) / (sigma * ors.sqrt T)
  let d2 := d1 - sigma * ors.sqrt T
  let price :=
    match ty with
    | .call => S * ors.cdf d1 - K * ors.exp (-(r * T)) * ors.cdf d2
    | .put => K * ors.exp (-(r * T)) * ors.cdf (-d2) - S * ors.cdf (-d1)
  price - option_price

/-- `OptionUtils.calculate_implied_volatility`: return `0.0` for quotes at
or below intrinsic plus `1e-6`, otherwise hand
`option_price_diff` to `brentq` over `[1e-6, 5.0]` (a caught
`ValueError` is `none`). -/
def calculate_implied_volatility (ors : Oracles) (option_price S K T r : ℚ)
    (ty : OptionType) : Option ℚ :=
  if option_price ≤ intrinsicValue ty S K + 1/1000000 then
    some 0
  else
    ors.brentq (option_price_diff ors S K T r ty option_price) (1/1000000) 5

/-- The time-to-expiry computation at the top of
`OptionUtils.calculate_delta`:
`max((expiry - now).total_seconds() / (365*24*60*60), 1e-6)`. -/
def timeToExpiryYears (expiry_timestamp current_timestamp : ℚ) : ℚ :=
  max ((expiry_timestamp - current_timestamp) / (365 * 24 * 60 * 60)) (1/1000000)

/-- `OptionUtils.calculate_delta`.  When `T` sits at the `1e-6` floor the
source returns the intrinsic-indicator delta; otherwise it inverts the
observed price to an implied volatility and applies the Black-Scholes
delta formula. -/
def calculate_delta (ors : Oracles) (option_price strike_price expiry_timestamp
    underlying_price risk_free_rate : ℚ) (ty : OptionType)
    (current_timestamp : ℚ) : Option ℚ :=
  if timeToExpiryYears expiry_timestamp current_timestamp = 1/1000000 then
    match ty with
    | .put => some (if underlying_price < strike_price then -1 else 0)
    | .call => some (if strike_price < underlying_price then 1 else 0)
  else
    match calculate_implied_volatility ors option_price underlying_price
        strike_price (timeToExpiryYears expiry_timestamp current_timestamp)
        risk_free_rate ty with
    | none => none
    | some iv =>
      some (match ty with
        | .call => ors.cdf ((ors.log (underlying_price / strike_price)
            + (risk_free_rate + (1/2) * iv ^ 2)
              * timeToExpiryYears expiry_timestamp current_timestamp)
          / (iv * ors.sqrt (timeToExpiryYears expiry_timestamp current_timestamp)))
        | .put => -(ors.cdf (-((ors.log (underlying_price / strike_price)
            + (risk_free_rate + (1/2) * iv ^ 2)
              * timeToExpiryYears expiry_timestamp current_timestamp)
          / (iv * ors.sqrt (timeToExpiryYears expiry_timestamp current_timestamp))))))

/-- The configuration fields of `SpreadSelector.__init__`. -/
structure SelectorConfig where
  short_put_delta_range : ℚ × ℚ
  long_put_delta_range : ℚ × ℚ
  spread_width_range : ℚ × ℚ
  risk_free_rate : ℚ
deriving DecidableEq, Repr

/-- `SpreadSelector._create_option_leg` applied to the fields
`find_spread` reads off a tick. -/
def mkLeg (t : Tick) (underlying delta : ℚ) : OptionLeg :=
  ⟨t.option_symbol, t.strike_price, underlying, delta, t.midpoint,
    t.timestamp, t.expiry⟩

/-- The candidate-slot pair `(short_put, long_put)` of `find_spread`
(`none` is Python `None`). -/
abbrev ScanState := Option OptionLeg × Option OptionLeg

/-- The `if not short_put and ... / elif ...` assignment block of
`find_spread`: a tick in the short delta band takes the short slot only
when that slot is empty; otherwise a tick in the long delta band
overwrites the long slot. -/
def assignLeg (cfg : SelectorConfig) (st : ScanState) (t : Tick)
    (underlying delta : ℚ) : ScanState :=
  if st.1 = none ∧ cfg.short_put_delta_range.1 ≤ delta
      ∧ delta ≤ cfg.short_put_delta_range.2 then
    (some (mkLeg t underlying delta), st.2)
  else if cfg.long_put_delta_range.1 ≤ delta
      ∧ delta ≤ cfg.long_put_delta_range.2 then
    (st.1, some (mkLeg t underlying delta))
  else
    st

/-- The `if short_put and long_put:` block of `find_spread`: with both
slots populated, a width inside the configured range returns the spread
(`Sum.inl`), a width outside it clears both slots; with a slot missing
the scan just carries the state. -/
def checkPair (cfg : SelectorConfig) (t : Tick) (st : ScanState) :
    SpreadLegs ⊕ ScanState :=
  match st with
  | (some short_put, some long_put) =>
    if cfg.spread_width_range.1 ≤ |short_put.strike_price - long_put.strike_price|
        ∧ |short_put.strike_price - long_put.strike_price|
          ≤ cfg.spread_width_range.2 then
      Sum.inl ⟨short_put, long_put,
        short_put.option_price - long_put.option_price, t.timestamp,
        |short_put.strike_price - long_put.strike_price|⟩
    else
      Sum.inr (none, none)
  | st => Sum.inr st

/-- The body of the inner tick loop of `find_spread`: skip ticks without
an underlying quote, skip ticks whose delta computation fails, otherwise
run the assignment block and then the both-legs width check. -/
def processTick (ors : Oracles) (cfg : SelectorConfig) (ty : OptionType)
    (st : ScanState) (t : Tick) : SpreadLegs ⊕ ScanState :=
  match t.underlying_close with
  | none => Sum.inr st
  | some underlying =>
    match calculate_delta ors t.midpoint t.strike_price t.expiry underlying
        cfg.risk_free_rate ty t.timestamp with
    | none => Sum.inr st
    | some delta => checkPair cfg t (assignLeg cfg st t underlying delta)

/-- The inner loop of `find_spread` over one timestamp group, threading
the candidate slots and stopping at the first returned spread. -/
def scanTicks (ors : Oracles) (cfg : SelectorConfig) (ty : OptionType) :
    List Tick → ScanState → SpreadLegs ⊕ ScanState
  | [], st => Sum.inr st
  | t :: rest, st =>
    match processTick ors cfg ty st t with
    | Sum.inl spr => Sum.inl spr
    | Sum.inr st2 => scanTicks ors cfg ty rest st2

/-- The outer loop of `find_spread` over the timestamp groups; the group
key itself is only printed by the source, the candidate slots persist
across groups. -/
def scanGroups (ors : Oracles) (cfg : SelectorConfig) (ty : OptionType) :
    List (ℚ × List Tick) → ScanState → Option SpreadLegs
  | [], _ => none
  | g :: rest, st =>
    match scanTicks ors cfg ty g.2 st with
    | Sum.inl spr => some spr
    | Sum.inr st2 => scanGroups ors cfg ty rest st2

/-- `SpreadSelector.find_spread`: scan the time-ordered groups with both
candidate slots initially empty. -/
def find_spread (ors : Oracles) (cfg : SelectorConfig)
    (historical_data_by_timestamp : List (ℚ × List Tick))
    (ty : OptionType) : Option SpreadLegs :=
  scanGroups ors cfg ty historical_data_by_timestamp (none, none)

/-- The same scan over a flat tick list; `scanGroups_eq_scanFlat` below
shows `find_spread` only depends on the concatenation of the groups. -/
def scanFlat (ors : Oracles) (cfg : SelectorConfig) (ty : OptionType) :
    List Tick → ScanState → Option SpreadLegs
  | [], _ => none
  | t :: rest, st =>
    match processTick ors cfg ty st t with
    | Sum.inl spr => some spr
    | Sum.inr st2 => scanFlat ors cfg ty rest st2

/-- All ticks of a grouped stream, in scan order. -/
def allTicks (data : List (ℚ × List Tick)) : List Tick :=
  (data.map Prod.snd).flatten

/-- The dictionary returned by
`SpreadSelector.calculate_current_spread_metrics`. -/
structure SpreadMetrics where
  current_spread_price : ℚ
  current_short_price : ℚ
  current_long_price : ℚ
  current_underlying_price : ℚ
  current_short_delta : ℚ
  current_long_delta : ℚ
  current_total_delta : ℚ
  timestamp : ℚ
deriving DecidableEq, Repr

/-- The price-location loop of `calculate_current_spread_metrics`: a tick
matching the short leg overwrites the short mid-price and
(unconditionally, even with an absent quote) the underlying price; a tick
matching the long leg overwrites the long mid-price and fills the
underlying price only when it is still unset.  The accumulator is
`(current_short_price, current_long_price, current_underlying_price)`. -/
def locatePrices (spread : SpreadLegs) :
    List Tick → Option ℚ × Option ℚ × Option ℚ → Option ℚ × Option ℚ × Option ℚ
  | [], acc => acc
  | t :: rest, (sp, lp, u) =>
    if t.option_symbol = spread.short_leg.option_symbol then
      locatePrices spread rest (some t.midpoint, lp, t.underlying_close)
    else if t.option_symbol = spread.long_leg.option_symbol then
      locatePrices spread rest
        (sp, some t.midpoint, if u = none then t.underlying_close else u)
    else
      locatePrices spread rest (sp, lp, u)

/-- `current_data[0]['timestamp']` — the source indexes the first tick of
the group (it is only reached when at least one tick matched a leg). -/
def headTimestamp : List Tick → ℚ
  | [] => 0
  | t :: _ => t.timestamp

/-- `SpreadSelector.calculate_current_spread_metrics`.  The source's
`if not all([...])` availability test is by Python truthiness, so a
present but zero price is treated exactly like a missing one; a failed
delta recomputation (always as puts) also yields `none`. -/
def calculate_current_spread_metrics (ors : Oracles) (spread : SpreadLegs)
    (current_data : List Tick) (risk_free_rate : ℚ) : Option SpreadMetrics :=
  match locatePrices spread current_data (none, none, none) with
  | (some sp, some lp, some u) =>
    if sp = 0 ∨ lp = 0 ∨ u = 0 then
      none
    else
      match calculate_delta ors sp spread.short_leg.strike_price
          spread.short_leg.expiration_date u risk_free_rate .put
          (headTimestamp current_data),
        calculate_delta ors lp spread.long_leg.strike_price
          spread.long_leg.expiration_date u risk_free_rate .put
          (headTimestamp current_data) with
      | some sd, some ld =>
        some ⟨sp - lp, sp, lp, u, sd, ld, |sd| - |ld|,
          headTimestamp current_data⟩
      | _, _ => none
  | _ => none

/-- The `status` strings of a trade outcome. -/
inductive ExitStatus where
  | target_profit
  | delta_stop_loss
  | assignment_risk
  | expired
deriving DecidableEq, Repr

/-- The dictionary returned by `ZeroDTEBacktester._check_exit_conditions`
before `_execute_single_trade` augments it. -/
structure ExitResult where
  status : ExitStatus
  theoretical_pnl : ℚ
deriving DecidableEq, Repr

/-- `ZeroDTEBacktester._check_exit_conditions`: profit target, then delta
stop loss, then assignment risk, first satisfied wins. -/
def check_exit_conditions (spread : SpreadLegs) (m : SpreadMetrics)
    (target_profit_price delta_stop_loss : ℚ) : Option ExitResult :=
  if m.current_spread_price ≤ target_profit_price then
    some ⟨.target_profit, (spread.credit_received - m.current_spread_price) * 100⟩
  else if delta_stop_loss ≤ m.current_total_delta then
    some ⟨.delta_stop_loss, (spread.credit_received - m.current_spread_price) * 100⟩
  else if m.current_underlying_price ≤ spread.short_leg.strike_price then
    some ⟨.assignment_risk,
      (spread.credit_received
        - (spread.short_leg.strike_price - m.current_underlying_price)) * 100⟩
  else
    none

/-- The completed-trade record `_execute_single_trade` returns. -/
structure TradeOutcome where
  status : ExitStatus
  theoretical_pnl : ℚ
  short_put_symbol : String
  long_put_symbol : String
  entry_time : ℚ
  exit_time : ℚ
  credit_received : ℚ
  spread_width : ℚ
deriving DecidableEq, Repr

/-- The strategy parameters of `ZeroDTEBacktester.__init__` consumed by
the trade loop. -/
structure BacktesterConfig where
  selector : SelectorConfig
  risk_free_rate : ℚ
  delta_stop_loss_multiplier : ℚ
  target_profit_percentage : ℚ
deriving DecidableEq, Repr

/-- The monitoring loop of `_execute_single_trade`: skip groups at or
before the entry timestamp, skip groups without computable metrics,
return the first firing exit condition together with the group key used
as `exit_time`. -/
def monitorTrade (ors : Oracles) (risk_free_rate target_profit_price
    delta_stop_loss : ℚ) (spread : SpreadLegs) :
    List (ℚ × List Tick) → Option (ExitStatus × ℚ × ℚ)
  | [] => none
  | (ts, group) :: rest =>
    if ts ≤ spread.entry_timestamp then
      monitorTrade ors risk_free_rate target_profit_price delta_stop_loss
        spread rest
    else
      match calculate_current_spread_metrics ors spread group risk_free_rate with
      | none =>
        monitorTrade ors risk_free_rate target_profit_price delta_stop_loss
          spread rest
      | some m =>
        match check_exit_conditions spread m target_profit_price delta_stop_loss with
        | none =>
          monitorTrade ors risk_free_rate target_profit_price delta_stop_loss
            spread rest
        | some er => some (er.status, er.theoretical_pnl, ts)

/-- `max(filtered_data.keys())` (the source only evaluates it on
non-empty data). -/
def maxKey : List (ℚ × List Tick) → ℚ
  | [] => 0
  | g :: rest => rest.foldl (fun a b => max a b.1) g.1

/-- `min(historical_data.keys())` (the source only evaluates it on
non-empty data). -/
def minKey : List (ℚ × List Tick) → ℚ
  | [] => 0
  | g :: rest => rest.foldl (fun a b => min a b.1) g.1

/-- `ZeroDTEBacktester._execute_single_trade`: find a spread, derive the
two thresholds, monitor; with no exit fired the trade expires with the
full credit and `exit_time = max(filtered_data.keys())`. -/
def execute_single_trade (ors : Oracles) (bt : BacktesterConfig)
    (filtered_data : List (ℚ × List Tick)) : Option TradeOutcome :=
  match find_spread ors bt.selector filtered_data .put with
  | none => none
  | some spread =>
    match monitorTrade ors bt.risk_free_rate
        (spread.credit_received * bt.target_profit_percentage)
        (spread.initial_total_delta * bt.delta_stop_loss_multiplier)
        spread filtered_data with
    | some (st, pnl, exit_ts) =>
      some ⟨st, pnl, spread.short_leg.option_symbol, spread.long_leg.option_symbol,
        spread.entry_timestamp, exit_ts, spread.credit_received, spread.spread_width⟩
    | none =>
      some ⟨.expired, spread.credit_received * 100, spread.short_leg.option_symbol,
        spread.long_leg.option_symbol, spread.entry_timestamp,
        maxKey filtered_data, spread.credit_received, spread.spread_width⟩

/-- The `while iteration <= max_iterations` loop of
`ZeroDTEBacktester.run`: filter the stream to timestamps at or after the
cursor, execute one trade, then advance the cursor to
`exit_time + 1 minute` (timestamps are seconds, so plus 60). -/
def runAux (ors : Oracles) (bt : BacktesterConfig)
    (data : List (ℚ × List Tick)) : ℕ → ℚ → List TradeOutcome
  | 0, _ => []
  | fuel + 1, cursor =>
    if (data.filter fun g => decide (cursor ≤ g.1)).isEmpty then
      []
    else
      match execute_single_trade ors bt
          (data.filter fun g => decide (cursor ≤ g.1)) with
      | none => []
      | some out => out :: runAux ors bt data fuel (out.exit_time + 60)

/-- `ZeroDTEBacktester.run`: starting cursor is the earliest timestamp;
empty data produces no trades. -/
def run (ors : Oracles) (bt : BacktesterConfig)
    (data : List (ℚ × List Tick)) (max_iterations : ℕ) : List TradeOutcome :=
  if data.isEmpty then [] else runAux ors bt data max_iterations (minKey data)

/-- The input contract of §6 of the design: ticks are grouped by
timestamp, so each tick's own timestamp is its group key. -/
def Grouped (data : List (ℚ × List Tick)) : Prop :=
  ∀ g ∈ data, ∀ t ∈ g.2, t.timestamp = g.1

/-! ## Concrete instantiations used by witnesses and counterexamples -/

/-- A trivial oracle bundle: every external routine returns zero and
`brentq` never brackets. -/
def ors0 : Oracles :=
  ⟨fun _ => 0, fun _ => 0, fun _ => 0, fun _ => 0, fun _ _ _ => none⟩

/-- An oracle bundle whose normal CDF is the constant one half (inside
`[0, 1]`) and whose `brentq` always reports the root `2`. -/
def orsH : Oracles :=
  ⟨fun _ => 1/2, fun _ => 1, fun _ => 0, fun _ => 1, fun _ _ _ => some 2⟩

/-- A spread entered at credit `3/5`: short leg strike 570, long leg
strike 567, width 3. -/
def sprW : SpreadLegs :=
  ⟨⟨"A", 570, 600, -(1/2), 1, 0, 15768000⟩,
    ⟨"B", 567, 600, -(3/10), 2/5, 0, 7884000⟩, 3/5, 0, 3⟩

/-- Metrics at a monitored timestamp where both the target-profit and the
delta-stop-loss conditions hold at once. -/
def mW : SpreadMetrics := ⟨11/20, 1, 2/5, 600, -(1/2), -(3/10), 1/5, 60⟩

/-- A piecewise normal-CDF oracle used to drive the spread scan onto
chosen deltas. -/
def cdfA : ℚ → ℚ := fun x =>
  if x = -(1/2) then 1/2 else if x = -(1/4) then 3/10 else 0

/-- Oracles under which `calculate_delta` returns `-(1/2)` for a tick
with half a year to expiry and `-(3/10)` for a tick with a quarter year
to expiry (log and sqrt constant, `brentq` reporting root `2`). -/
def orsA : Oracles := ⟨cdfA, fun _ => 1, fun _ => 0, fun _ => 1, fun _ _ _ => some 2⟩

/-- The selector configuration of the concrete scan scenarios: short
band `[-0.6, -0.2]`, long band `[-0.4, -0.2]` (the bands overlap, as the
source defaults do), width range `[2, 4]`, zero rate. -/
def cfgA : SelectorConfig := ⟨(-(6/10), -(2/10)), (-(4/10), -(2/10)), (2, 4), 0⟩

/-- Tick with delta `-(1/2)` under `orsA`: inside the short band only. -/
def tickA1 : Tick := ⟨"A", some 600, 1, 570, 15768000, 0⟩

/-- Tick with delta `-(3/10)` under `orsA`: inside both bands. -/
def tickA2 : Tick := ⟨"B", some 600, 2/5, 567, 7884000, 0⟩

def dataA : List (ℚ × List Tick) := [(0, [tickA1, tickA2])]

def legA1 : OptionLeg := ⟨"A", 570, 600, -(1/2), 1, 0, 15768000⟩

def legA2 : OptionLeg := ⟨"B", 567, 600, -(3/10), 2/5, 0, 7884000⟩

/-- The spread the scan returns on `dataA` under `cfgA`. -/
def sprA : SpreadLegs := ⟨legA1, legA2, 3/5, 0, 3⟩

/-- `cfgA` with the width range widened to `[0, 4]`. -/
def cfgZ : SelectorConfig := ⟨(-(6/10), -(2/10)), (-(4/10), -(2/10)), (0, 4), 0⟩

/-- A second quote of the very symbol and strike of `tickA1`, with delta
`-(3/10)` under `orsA`. -/
def tickZ2 : Tick := ⟨"A", some 600, 2/5, 570, 7884000, 0⟩

def dataZ : List (ℚ × List Tick) := [(0, [tickA1, tickZ2])]

def legZ2 : OptionLeg := ⟨"A", 570, 600, -(3/10), 2/5, 0, 7884000⟩

/-- The spread the scan returns on `dataZ` under `cfgZ`: both legs carry
symbol `"A"` and the width is `0`. -/
def sprZ : SpreadLegs := ⟨legA1, legZ2, 3/5, 0, 0⟩

/-- A long-band tick whose strike `400` makes the pair width `170`. -/
def tickW3 : Tick := ⟨"C", some 600, 2/5, 400, 7884000, 0⟩

def legW3 : OptionLeg := ⟨"C", 400, 600, -(3/10), 2/5, 0, 7884000⟩

/-- A tick for the long leg of `sprW` carrying an underlying quote. -/
def tickL7 : Tick := ⟨"B", some 5, 2/5, 567, 7884000, 60⟩

/-- A tick for the short leg of `sprW` with no underlying quote. -/
def tickS7 : Tick := ⟨"A", none, 1, 570, 15768000, 60⟩

/-- A tick for the short leg of `sprW` whose mid-price is exactly `0`. -/
def tickS10 : Tick := ⟨"A", some 600, 0, 570, 15768000, 60⟩

/-- A tick for the long leg of `sprW` with a nonzero mid-price. -/
def tickL10 : Tick := ⟨"B", some 600, 2/5, 567, 7884000, 60⟩

/-- Leg provenance: the leg's symbol and strike are those of a tick of
the list. -/
def LegFrom (ticks : List Tick) (leg : OptionLeg) : Prop :=
  ∃ t ∈ ticks, leg.option_symbol = t.option_symbol ∧
    leg.strike_price = t.strike_price

/-- Both candidate slots, when populated, hold legs coming from the
given ticks. -/
def SlotsFrom (ticks : List Tick) (st : ScanState) : Prop :=
  (∀ l, st.1 = some l → LegFrom ticks l) ∧
  (∀ l, st.2 = some l → LegFrom ticks l)

/-! ## Claim C1 -/

/-- Claim C1: `_check_exit_conditions` evaluates target-profit, then
delta-stop-loss, then assignment-risk, first satisfied wins; at a
monitored timestamp where the target-profit condition
(`current_spread_price <= target_profit_price`) and the delta-stop-loss
condition (`current_total_delta >= delta_stop_loss`) hold simultaneously,
the result carries status `target_profit`, never `delta_stop_loss`. -/
theorem C1_exit_priority (spread : SpreadLegs) (m : SpreadMetrics)
    (target_profit_price delta_stop_loss : ℚ)
    (h1 : m.current_spread_price ≤ target_profit_price)
    (h2 : delta_stop_loss ≤ m.current_total_delta) :
    check_exit_conditions spread m target_profit_price delta_stop_loss =
      some ⟨.target_profit,
        (spread.credit_received - m.current_spread_price) * 100⟩ := by
  unfold check_exit_conditions
  rw [if_pos h1]

theorem C1_exit_priority_witness :
    check_exit_conditions sprW mW (3/5) (1/10) =
      some ⟨.target_profit,
        (sprW.credit_received - mW.current_spread_price) * 100⟩ :=
  C1_exit_priority sprW mW (3/5) (1/10) (by norm_num [mW]) (by norm_num [mW])

/-! ## Claim C4 -/

/-- Claim C4: `calculate_implied_volatility` returns exactly `0.0` when
the price is at most intrinsic plus `1e-6` — for every behaviour of the
root finder, so no root-finding is attempted; otherwise it is exactly a
bracketed `brentq` root-find of `BS_price(sigma) - P` over
`[1e-6, 5.0]`; and when the endpoints of that interval do not bracket a
root (same nonzero sign, which is when `scipy.optimize.brentq` raises the
caught `ValueError`) the result is the absent value `none`, not a fatal
error. -/
theorem C4_implied_vol_branches (ors : Oracles) (option_price S K T r : ℚ)
    (ty : OptionType) :
    (option_price ≤ intrinsicValue ty S K + 1/1000000 →
      calculate_implied_volatility ors option_price S K T r ty = some 0) ∧
    (intrinsicValue ty S K + 1/1000000 < option_price →
      calculate_implied_volatility ors option_price S K T r ty =
        ors.brentq (option_price_diff ors S K T r ty option_price)
          (1/1000000) 5) ∧
    (intrinsicValue ty S K + 1/1000000 < option_price →
      (∀ f a b, 0 < f a * f b → ors.brentq f a b = none) →
      0 < option_price_diff ors S K T r ty option_price (1/1000000) *
          option_price_diff ors S K T r ty option_price 5 →
      calculate_implied_volatility ors option_price S K T r ty = none) := by
  refine ⟨fun h => ?_, fun h => ?_, fun h hb hprod => ?_⟩
  · rw [calculate_implied_volatility, if_pos h]
  · rw [calculate_implied_volatility, if_neg (not_le.mpr h)]
  · rw [calculate_implied_volatility, if_neg (not_le.mpr h)]
    exact hb _ _ _ hprod

theorem C4_implied_vol_branches_witness :
    calculate_implied_volatility ors0 0 1 1 1 0 .put = some 0 ∧
    calculate_implied_volatility ors0 1 1 1 1 0 .put = none := by
  have hdiff : ∀ s : ℚ, option_price_diff ors0 1 1 1 0 .put 1 s = -1 := by
    intro s
    show ((1:ℚ) * 0 * 0 - 1 * 0) - 1 = -1
    norm_num
  constructor
  · exact (C4_implied_vol_branches ors0 0 1 1 1 0 .put).1
      (by norm_num [intrinsicValue])
  · exact (C4_implied_vol_branches ors0 1 1 1 1 0 .put).2.2
      (by norm_num [intrinsicValue]) (fun f a b _ => rfl)
      (by rw [hdiff, hdiff]; norm_num)

/-! ## Claim C5 -/

/-- Claim C5: in `calculate_delta` the time to expiry is floored at
`1e-6` years (so it is never zero), and whenever it sits at the floor the
function skips implied-volatility inversion entirely — the result is the
same for every oracle behaviour — returning the intrinsic-indicator
delta: for puts `-1.0` if `underlying_price < strike_price` else `0.0`,
for calls `1.0` if `underlying_price > strike_price` else `0.0`. -/
theorem C5_expiry_floor_delta (ors : Oracles) (option_price strike_price
    expiry_timestamp underlying_price risk_free_rate : ℚ) (ty : OptionType)
    (current_timestamp : ℚ) :
    1/1000000 ≤ timeToExpiryYears expiry_timestamp current_timestamp ∧
    (timeToExpiryYears expiry_timestamp current_timestamp = 1/1000000 →
      calculate_delta ors option_price strike_price expiry_timestamp
          underlying_price risk_free_rate ty current_timestamp =
        some (match ty with
          | .put => if underlying_price < strike_price then -1 else 0
          | .call => if strike_price < underlying_price then 1 else 0)) := by
  constructor
  · exact le_max_right _ _
  · intro h
    unfold calculate_delta
    rw [if_pos h]
    cases ty <;> rfl

theorem C5_expiry_floor_delta_witness :
    calculate_delta ors0 1 2 0 1 0 .put 0 = some (-1) := by
  have h := (C5_expiry_floor_delta ors0 1 2 0 1 0 .put 0).2
    (by rw [timeToExpiryYears]; norm_num)
  rw [h, if_pos (by norm_num)]

/-! ## Claim C9 -/

/-- Claim C9: whenever `calculate_delta` returns a numeric value and the
normal CDF oracle stays in `[0, 1]` (the mathematical contract of
`scipy.stats.norm.cdf`), put delta lies in `[-1, 0]` and call delta lies
in `[0, 1]`; this covers the intrinsic-indicator branch and the branch
deriving delta from the recovered implied volatility (also when that
volatility is exactly `0.0`, where the embedded `d1` is the junk value of
division by zero — any argument to the CDF keeps the bound). -/
theorem C9_delta_bounds (ors : Oracles) (option_price strike_price
    expiry_timestamp underlying_price risk_free_rate current_timestamp : ℚ)
    (hcdf : ∀ x, 0 ≤ ors.cdf x ∧ ors.cdf x ≤ 1) :
    (∀ d, calculate_delta ors option_price strike_price expiry_timestamp
        underlying_price risk_free_rate .put current_timestamp = some d →
      -1 ≤ d ∧ d ≤ 0) ∧
    (∀ d, calculate_delta ors option_price strike_price expiry_timestamp
        underlying_price risk_free_rate .call current_timestamp = some d →
      0 ≤ d ∧ d ≤ 1) := by
  constructor <;> intro d hd <;> unfold calculate_delta at hd <;>
    by_cases h : timeToExpiryYears expiry_timestamp current_timestamp
      = 1/1000000
  · rw [if_pos h] at hd
    have hd2 := Option.some.inj hd
    subst hd2
    constructor
    · split <;> norm_num
    · split <;> norm_num
  · rw [if_neg h] at hd
    cases hIV : calculate_implied_volatility ors option_price
        underlying_price strike_price
        (timeToExpiryYears expiry_timestamp current_timestamp)
        risk_free_rate .put with
    | none =>
      rw [hIV] at hd
      exact absurd ((rfl : (none : Option ℚ) = none).trans hd) (by simp)
    | some iv =>
      rw [hIV] at hd
      have hd2 := Option.some.inj hd
      subst hd2
      exact ⟨neg_le_neg (hcdf _).2, neg_nonpos.mpr (hcdf _).1⟩
  · rw [if_pos h] at hd
    have hd2 := Option.some.inj hd
    subst hd2
    constructor
    · split <;> norm_num
    · split <;> norm_num
  · rw [if_neg h] at hd
    cases hIV : calculate_implied_volatility ors option_price
        underlying_price strike_price
        (timeToExpiryYears expiry_timestamp current_timestamp)
        risk_free_rate .call with
    | none =>
      rw [hIV] at hd
      exact absurd ((rfl : (none : Option ℚ) = none).trans hd) (by simp)
    | some iv =>
      rw [hIV] at hd
      have hd2 := Option.some.inj hd
      subst hd2
      exact hcdf _

theorem C9_delta_bounds_witness : -1 ≤ (-1 : ℚ) ∧ (-1 : ℚ) ≤ 0 :=
  (C9_delta_bounds orsH 1 2 0 1 0 0
      (fun _ => ⟨by norm_num [orsH], by norm_num [orsH]⟩)).1 (-1)
    (by
      unfold calculate_delta
      rw [if_pos (show timeToExpiryYears 0 0 = 1/1000000 by
        rw [timeToExpiryYears]; norm_num)]
      rw [if_pos (show (1:ℚ) < 2 by norm_num)])

/-! ## Spread-scan machinery -/

theorem processTick_eval {ors : Oracles} {cfg : SelectorConfig}
    {ty : OptionType} {st : ScanState} {t : Tick} {u delta : ℚ}
    {r : SpreadLegs ⊕ ScanState}
    (hu : t.underlying_close = some u)
    (hδ : calculate_delta ors t.midpoint t.strike_price t.expiry u
      cfg.risk_free_rate ty t.timestamp = some delta)
    (hr : checkPair cfg t (assignLeg cfg st t u delta) = r) :
    processTick ors cfg ty st t = r := by
  unfold processTick
  rw [hu]
  show (match calculate_delta ors t.midpoint t.strike_price t.expiry u
      cfg.risk_free_rate ty t.timestamp with
    | none => Sum.inr st
    | some d => checkPair cfg t (assignLeg cfg st t u d)) = r
  rw [hδ]
  exact hr

theorem processTick_skip_underlying {ors : Oracles} {cfg : SelectorConfig}
    {ty : OptionType} {st : ScanState} {t : Tick}
    (hu : t.underlying_close = none) :
    processTick ors cfg ty st t = Sum.inr st := by
  unfold processTick
  rw [hu]

theorem calculate_delta_orsA_half :
    calculate_delta orsA 1 570 15768000 600 0 .put 0 = some (-(1/2)) := by
  have hT : timeToExpiryYears 15768000 0 = 1/2 := by
    rw [timeToExpiryYears]; norm_num
  have hIV : calculate_implied_volatility orsA 1 600 570 (1/2) 0 .put = some 2 := by
    rw [calculate_implied_volatility, if_neg (by norm_num [intrinsicValue])]
    rfl
  unfold calculate_delta
  rw [hT, if_neg (by norm_num), hIV]
  show some (-(orsA.cdf (-((orsA.log (600 / 570)
    + (0 + 1/2 * (2:ℚ) ^ 2) * (1/2)) / (2 * orsA.sqrt (1/2)))))) = _
  have hd1 : (orsA.log (600 / 570) + (0 + 1/2 * (2:ℚ) ^ 2) * (1/2))
      / (2 * orsA.sqrt (1/2)) = 1/2 := by
    show ((0:ℚ) + (0 + 1/2 * (2:ℚ) ^ 2) * (1/2)) / (2 * 1) = 1/2
    norm_num
  rw [hd1]
  show some (-(cdfA (-(1/2)))) = _
  rw [cdfA, if_pos rfl]

theorem calculate_delta_orsA_quarter (K : ℚ) (hK : K ≤ 600) :
    calculate_delta orsA (2/5) K 7884000 600 0 .put 0 = some (-(3/10)) := by
  have hT : timeToExpiryYears 7884000 0 = 1/4 := by
    rw [timeToExpiryYears]; norm_num
  have hint : intrinsicValue .put 600 K = 0 := by
    show max 0 (K - 600) = 0
    exact max_eq_left (by linarith)
  have hIV : calculate_implied_volatility orsA (2/5) 600 K (1/4) 0 .put
      = some 2 := by
    rw [calculate_implied_volatility, if_neg (by rw [hint]; norm_num)]
    rfl
  unfold calculate_delta
  rw [hT, if_neg (by norm_num), hIV]
  show some (-(orsA.cdf (-((orsA.log (600 / K)
    + (0 + 1/2 * (2:ℚ) ^ 2) * (1/4)) / (2 * orsA.sqrt (1/4)))))) = _
  have hd1 : (orsA.log (600 / K) + (0 + 1/2 * (2:ℚ) ^ 2) * (1/4))
      / (2 * orsA.sqrt (1/4)) = 1/4 := by
    show ((0:ℚ) + (0 + 1/2 * (2:ℚ) ^ 2) * (1/4)) / (2 * 1) = 1/4
    norm_num
  rw [hd1]
  show some (-(cdfA (-(1/4)))) = _
  rw [cdfA, if_neg (by norm_num), if_pos rfl]

theorem checkPair_inl {cfg : SelectorConfig} {t : Tick} {st : ScanState}
    {spr : SpreadLegs} (h : checkPair cfg t st = Sum.inl spr) :
    st = (some spr.short_leg, some spr.long_leg) ∧
    spr.spread_width
      = |spr.short_leg.strike_price - spr.long_leg.strike_price| ∧
    cfg.spread_width_range.1 ≤ spr.spread_width ∧
    spr.spread_width ≤ cfg.spread_width_range.2 ∧
    spr.entry_timestamp = t.timestamp := by
  obtain ⟨a, b⟩ := st
  cases a with
  | none => exact Sum.noConfusion (h : Sum.inr ((none : Option OptionLeg), b) = Sum.inl spr)
  | some a =>
    cases b with
    | none => exact Sum.noConfusion (h : Sum.inr (some a, (none : Option OptionLeg)) = Sum.inl spr)
    | some b =>
      have h2 : (if cfg.spread_width_range.1 ≤ |a.strike_price - b.strike_price|
          ∧ |a.strike_price - b.strike_price| ≤ cfg.spread_width_range.2 then
            (Sum.inl ⟨a, b, a.option_price - b.option_price, t.timestamp,
              |a.strike_price - b.strike_price|⟩ : SpreadLegs ⊕ ScanState)
          else Sum.inr (none, none)) = Sum.inl spr := h
      split at h2
      next hcond =>
        cases Sum.inl.inj h2
        exact ⟨rfl, rfl, hcond.1, hcond.2, rfl⟩
      next => exact Sum.noConfusion h2

theorem checkPair_inr {cfg : SelectorConfig} {t : Tick} {st st2 : ScanState}
    (h : checkPair cfg t st = Sum.inr st2) :
    st2 = (none, none) ∨ st2 = st := by
  obtain ⟨a, b⟩ := st
  cases a with
  | none => exact Or.inr (Sum.inr.inj (h : Sum.inr ((none : Option OptionLeg), b) = Sum.inr st2)).symm
  | some a =>
    cases b with
    | none => exact Or.inr (Sum.inr.inj (h : Sum.inr (some a, (none : Option OptionLeg)) = Sum.inr st2)).symm
    | some b =>
      have h2 : (if cfg.spread_width_range.1 ≤ |a.strike_price - b.strike_price|
          ∧ |a.strike_price - b.strike_price| ≤ cfg.spread_width_range.2 then
            (Sum.inl ⟨a, b, a.option_price - b.option_price, t.timestamp,
              |a.strike_price - b.strike_price|⟩ : SpreadLegs ⊕ ScanState)
          else Sum.inr (none, none)) = Sum.inr st2 := h
      split at h2
      next => exact Sum.noConfusion h2
      next => exact Or.inl (Sum.inr.inj h2).symm

theorem assignLeg_fst {cfg : SelectorConfig} {st : ScanState} {t : Tick}
    {u delta : ℚ} :
    (assignLeg cfg st t u delta).1 = st.1 ∨
    (assignLeg cfg st t u delta).1 = some (mkLeg t u delta) := by
  unfold assignLeg
  split
  · exact Or.inr rfl
  · split
    · exact Or.inl rfl
    · exact Or.inl rfl

theorem assignLeg_snd {cfg : SelectorConfig} {st : ScanState} {t : Tick}
    {u delta : ℚ} :
    (assignLeg cfg st t u delta).2 = st.2 ∨
    (assignLeg cfg st t u delta).2 = some (mkLeg t u delta) := by
  unfold assignLeg
  split
  · exact Or.inl rfl
  · split
    · exact Or.inr rfl
    · exact Or.inl rfl

theorem processTick_inl {ors : Oracles} {cfg : SelectorConfig}
    {ty : OptionType} {st : ScanState} {t : Tick} {spr : SpreadLegs}
    (h : processTick ors cfg ty st t = Sum.inl spr) :
    ∃ u delta, t.underlying_close = some u ∧
      calculate_delta ors t.midpoint t.strike_price t.expiry u
        cfg.risk_free_rate ty t.timestamp = some delta ∧
      checkPair cfg t (assignLeg cfg st t u delta) = Sum.inl spr := by
  unfold processTick at h
  cases hu : t.underlying_close with
  | none =>
    rw [hu] at h
    exact Sum.noConfusion (h : Sum.inr st = Sum.inl spr)
  | some u =>
    rw [hu] at h
    have h2 : (match calculate_delta ors t.midpoint t.strike_price t.expiry u
        cfg.risk_free_rate ty t.timestamp with
      | none => Sum.inr st
      | some d => checkPair cfg t (assignLeg cfg st t u d)) = Sum.inl spr := h
    cases hδ : calculate_delta ors t.midpoint t.strike_price t.expiry u
        cfg.risk_free_rate ty t.timestamp with
    | none =>
      rw [hδ] at h2
      exact Sum.noConfusion (h2 : Sum.inr st = Sum.inl spr)
    | some d =>
      rw [hδ] at h2
      exact ⟨u, d, rfl, hδ, h2⟩

theorem processTick_inr {ors : Oracles} {cfg : SelectorConfig}
    {ty : OptionType} {st st2 : ScanState} {t : Tick}
    (h : processTick ors cfg ty st t = Sum.inr st2) :
    (∀ l, st2.1 = some l → st.1 = some l ∨
      (l.option_symbol = t.option_symbol ∧ l.strike_price = t.strike_price)) ∧
    (∀ l, st2.2 = some l → st.2 = some l ∨
      (l.option_symbol = t.option_symbol ∧ l.strike_price = t.strike_price)) := by
  unfold processTick at h
  cases hu : t.underlying_close with
  | none =>
    rw [hu] at h
    cases Sum.inr.inj (h : Sum.inr st = Sum.inr st2)
    exact ⟨fun l hl => Or.inl hl, fun l hl => Or.inl hl⟩
  | some u =>
    rw [hu] at h
    have h2 : (match calculate_delta ors t.midpoint t.strike_price t.expiry u
        cfg.risk_free_rate ty t.timestamp with
      | none => Sum.inr st
      | some d => checkPair cfg t (assignLeg cfg st t u d)) = Sum.inr st2 := h
    cases hδ : calculate_delta ors t.midpoint t.strike_price t.expiry u
        cfg.risk_free_rate ty t.timestamp with
    | none =>
      rw [hδ] at h2
      cases Sum.inr.inj (h2 : Sum.inr st = Sum.inr st2)
      exact ⟨fun l hl => Or.inl hl, fun l hl => Or.inl hl⟩
    | some d =>
      rw [hδ] at h2
      rcases checkPair_inr h2 with hreset | hkeep
      · subst hreset
        exact ⟨fun l hl => Option.noConfusion hl,
          fun l hl => Option.noConfusion hl⟩
      · subst hkeep
        constructor
        · intro l hl
          rcases @assignLeg_fst cfg st t u d with ha | ha
          · exact Or.inl (ha ▸ hl)
          · rw [ha] at hl
            cases Option.some.inj hl
            exact Or.inr ⟨rfl, rfl⟩
        · intro l hl
          rcases @assignLeg_snd cfg st t u d with ha | ha
          · exact Or.inl (ha ▸ hl)
          · rw [ha] at hl
            cases Option.some.inj hl
            exact Or.inr ⟨rfl, rfl⟩

theorem scanFlat_append (ors : Oracles) (cfg : SelectorConfig)
    (ty : OptionType) (l1 l2 : List Tick) (st : ScanState) :
    scanFlat ors cfg ty (l1 ++ l2) st =
      match scanTicks ors cfg ty l1 st with
      | Sum.inl spr => some spr
      | Sum.inr st2 => scanFlat ors cfg ty l2 st2 := by
  induction l1 generalizing st with
  | nil => rfl
  | cons t rest ih =>
    show (match processTick ors cfg ty st t with
        | Sum.inl spr => some spr
        | Sum.inr st2 => scanFlat ors cfg ty (rest ++ l2) st2) =
      match (match processTick ors cfg ty st t with
        | Sum.inl spr => Sum.inl spr
        | Sum.inr st2 => scanTicks ors cfg ty rest st2) with
      | Sum.inl spr => some spr
      | Sum.inr st2 => scanFlat ors cfg ty l2 st2
    cases processTick ors cfg ty st t with
    | inl spr => rfl
    | inr st2 => exact ih st2

theorem allTicks_cons (g : ℚ × List Tick) (rest : List (ℚ × List Tick)) :
    allTicks (g :: rest) = g.2 ++ allTicks rest := by
  simp [allTicks]

theorem scanGroups_eq_scanFlat (ors : Oracles) (cfg : SelectorConfig)
    (ty : OptionType) (data : List (ℚ × List Tick)) (st : ScanState) :
    scanGroups ors cfg ty data st = scanFlat ors cfg ty (allTicks data) st := by
  induction data generalizing st with
  | nil => rfl
  | cons g rest ih =>
    rw [allTicks_cons, scanFlat_append]
    show (match scanTicks ors cfg ty g.2 st with
        | Sum.inl spr => some spr
        | Sum.inr st2 => scanGroups ors cfg ty rest st2) = _
    cases scanTicks ors cfg ty g.2 st with
    | inl spr => rfl
    | inr st2 => exact ih st2

theorem scanFlat_some_width {ors : Oracles} {cfg : SelectorConfig}
    {ty : OptionType} {ticks : List Tick} {st : ScanState} {spr : SpreadLegs}
    (h : scanFlat ors cfg ty ticks st = some spr) :
    spr.spread_width
      = |spr.short_leg.strike_price - spr.long_leg.strike_price| ∧
    cfg.spread_width_range.1 ≤ spr.spread_width ∧
    spr.spread_width ≤ cfg.spread_width_range.2 := by
  induction ticks generalizing st with
  | nil => exact Option.noConfusion h
  | cons t rest ih =>
    have h2 : (match processTick ors cfg ty st t with
        | Sum.inl s => some s
        | Sum.inr st2 => scanFlat ors cfg ty rest st2) = some spr := h
    cases hp : processTick ors cfg ty st t with
    | inl s =>
      rw [hp] at h2
      cases Option.some.inj (h2 : some s = some spr)
      obtain ⟨u, d, hu, hδ, hcp⟩ := processTick_inl hp
      obtain ⟨_, hw, h1, h2, _⟩ := checkPair_inl hcp
      exact ⟨hw, h1, h2⟩
    | inr st2 =>
      rw [hp] at h2
      exact ih (h2 : scanFlat ors cfg ty rest st2 = some spr)

theorem scanFlat_some_legsFrom {ors : Oracles} {cfg : SelectorConfig}
    {ty : OptionType} {U : List Tick} {ticks : List Tick} {st : ScanState}
    {spr : SpreadLegs}
    (hsub : ∀ t ∈ ticks, t ∈ U) (hst : SlotsFrom U st)
    (h : scanFlat ors cfg ty ticks st = some spr) :
    LegFrom U spr.short_leg ∧ LegFrom U spr.long_leg := by
  induction ticks generalizing st with
  | nil => exact Option.noConfusion h
  | cons t rest ih =>
    have ht : t ∈ U := hsub t (List.mem_cons_self t rest)
    have hrest : ∀ x ∈ rest, x ∈ U := fun x hx => hsub x (List.mem_cons_of_mem _ hx)
    have h2 : (match processTick ors cfg ty st t with
        | Sum.inl s => some s
        | Sum.inr st2 => scanFlat ors cfg ty rest st2) = some spr := h
    cases hp : processTick ors cfg ty st t with
    | inl s =>
      rw [hp] at h2
      cases Option.some.inj (h2 : some s = some spr)
      obtain ⟨u, d, hu, hδ, hcp⟩ := processTick_inl hp
      obtain ⟨hsteq, _, _, _, _⟩ := checkPair_inl hcp
      constructor
      · rcases @assignLeg_fst cfg st t u d with ha | ha
        · refine hst.1 _ ?_
          rw [← ha, hsteq]
        · rw [hsteq] at ha
          have hleg := Option.some.inj ha
          exact ⟨t, ht, by rw [hleg]; rfl, by rw [hleg]; rfl⟩
      · rcases @assignLeg_snd cfg st t u d with ha | ha
        · refine hst.2 _ ?_
          rw [← ha, hsteq]
        · rw [hsteq] at ha
          have hleg := Option.some.inj ha
          exact ⟨t, ht, by rw [hleg]; rfl, by rw [hleg]; rfl⟩
    | inr st2 =>
      rw [hp] at h2
      refine ih hrest ?_ (h2 : scanFlat ors cfg ty rest st2 = some spr)
      obtain ⟨hfst, hsnd⟩ := processTick_inr hp
      constructor
      · intro l hl
        rcases hfst l hl with hcase | hcase
        · exact hst.1 _ hcase
        · exact ⟨t, ht, hcase.1, hcase.2⟩
      · intro l hl
        rcases hsnd l hl with hcase | hcase
        · exact hst.2 _ hcase
        · exact ⟨t, ht, hcase.1, hcase.2⟩

theorem scanFlat_some_entry {ors : Oracles} {cfg : SelectorConfig}
    {ty : OptionType} {ticks : List Tick} {st : ScanState} {spr : SpreadLegs}
    (h : scanFlat ors cfg ty ticks st = some spr) :
    ∃ t ∈ ticks, spr.entry_timestamp = t.timestamp := by
  induction ticks generalizing st with
  | nil => exact Option.noConfusion h
  | cons t rest ih =>
    have h2 : (match processTick ors cfg ty st t with
        | Sum.inl s => some s
        | Sum.inr st2 => scanFlat ors cfg ty rest st2) = some spr := h
    cases hp : processTick ors cfg ty st t with
    | inl s =>
      rw [hp] at h2
      cases Option.some.inj (h2 : some s = some spr)
      obtain ⟨u, d, hu, hδ, hcp⟩ := processTick_inl hp
      obtain ⟨_, _, _, _, hentry⟩ := checkPair_inl hcp
      exact ⟨t, List.mem_cons_self t rest, hentry⟩
    | inr st2 =>
      rw [hp] at h2
      obtain ⟨x, hx, hent⟩ := ih (h2 : scanFlat ors cfg ty rest st2 = some spr)
      exact ⟨x, List.mem_cons_of_mem _ hx, hent⟩

theorem find_spread_dataA : find_spread orsA cfgA dataA .put = some sprA := by
  have hp1 : processTick orsA cfgA .put (none, none) tickA1
      = Sum.inr (some legA1, none) := by
    refine processTick_eval (show tickA1.underlying_close = some 600 from rfl)
      calculate_delta_orsA_half ?_
    have ha : assignLeg cfgA (none, none) tickA1 600 (-(1/2))
        = (some legA1, none) := by
      unfold assignLeg
      rw [if_pos ⟨rfl, by norm_num [cfgA], by norm_num [cfgA]⟩]
      rfl
    rw [ha]
    rfl
  have hp2 : processTick orsA cfgA .put (some legA1, none) tickA2
      = Sum.inl sprA := by
    refine processTick_eval (show tickA2.underlying_close = some 600 from rfl)
      (calculate_delta_orsA_quarter 567 (by norm_num)) ?_
    have ha : assignLeg cfgA (some legA1, none) tickA2 600 (-(3/10))
        = (some legA1, some legA2) := by
      unfold assignLeg
      rw [if_neg (fun hc => Option.noConfusion hc.1),
        if_pos ⟨by norm_num [cfgA], by norm_num [cfgA]⟩]
      rfl
    rw [ha]
    show (if cfgA.spread_width_range.1
          ≤ |legA1.strike_price - legA2.strike_price|
        ∧ |legA1.strike_price - legA2.strike_price|
          ≤ cfgA.spread_width_range.2 then
        (Sum.inl ⟨legA1, legA2, legA1.option_price - legA2.option_price,
          tickA2.timestamp, |legA1.strike_price - legA2.strike_price|⟩
          : SpreadLegs ⊕ ScanState)
      else Sum.inr (none, none)) = Sum.inl sprA
    rw [if_pos ⟨by norm_num [cfgA, legA1, legA2],
      by norm_num [cfgA, legA1, legA2]⟩]
    norm_num [legA1, legA2, sprA, tickA2, Sum.inl.injEq, SpreadLegs.mk.injEq]
  show scanGroups orsA cfgA .put dataA (none, none) = some sprA
  show (match scanTicks orsA cfgA .put [tickA1, tickA2] (none, none) with
    | Sum.inl spr => some spr
    | Sum.inr st2 => scanGroups orsA cfgA .put [] st2) = some sprA
  have hscan : scanTicks orsA cfgA .put [tickA1, tickA2] (none, none)
      = Sum.inl sprA := by
    show (match processTick orsA cfgA .put (none, none) tickA1 with
      | Sum.inl spr => Sum.inl spr
      | Sum.inr st2 => scanTicks orsA cfgA .put [tickA2] st2)
        = Sum.inl sprA
    rw [hp1]
    show (match processTick orsA cfgA .put (some legA1, none) tickA2 with
      | Sum.inl spr => Sum.inl spr
      | Sum.inr st2 => scanTicks orsA cfgA .put [] st2) = Sum.inl sprA
    rw [hp2]
  rw [hscan]

theorem find_spread_dataZ : find_spread orsA cfgZ dataZ .put = some sprZ := by
  have hp1 : processTick orsA cfgZ .put (none, none) tickA1
      = Sum.inr (some legA1, none) := by
    refine processTick_eval (show tickA1.underlying_close = some 600 from rfl)
      calculate_delta_orsA_half ?_
    have ha : assignLeg cfgZ (none, none) tickA1 600 (-(1/2))
        = (some legA1, none) := by
      unfold assignLeg
      rw [if_pos ⟨rfl, by norm_num [cfgZ], by norm_num [cfgZ]⟩]
      rfl
    rw [ha]
    rfl
  have hp2 : processTick orsA cfgZ .put (some legA1, none) tickZ2
      = Sum.inl sprZ := by
    refine processTick_eval (show tickZ2.underlying_close = some 600 from rfl)
      (calculate_delta_orsA_quarter 570 (by norm_num)) ?_
    have ha : assignLeg cfgZ (some legA1, none) tickZ2 600 (-(3/10))
        = (some legA1, some legZ2) := by
      unfold assignLeg
      rw [if_neg (fun hc => Option.noConfusion hc.1),
        if_pos ⟨by norm_num [cfgZ], by norm_num [cfgZ]⟩]
      rfl
    rw [ha]
    show (if cfgZ.spread_width_range.1
          ≤ |legA1.strike_price - legZ2.strike_price|
        ∧ |legA1.strike_price - legZ2.strike_price|
          ≤ cfgZ.spread_width_range.2 then
        (Sum.inl ⟨legA1, legZ2, legA1.option_price - legZ2.option_price,
          tickZ2.timestamp, |legA1.strike_price - legZ2.strike_price|⟩
          : SpreadLegs ⊕ ScanState)
      else Sum.inr (none, none)) = Sum.inl sprZ
    rw [if_pos ⟨by norm_num [cfgZ, legA1, legZ2],
      by norm_num [cfgZ, legA1, legZ2]⟩]
    norm_num [legA1, legZ2, sprZ, tickZ2, Sum.inl.injEq, SpreadLegs.mk.injEq]
  show scanGroups orsA cfgZ .put dataZ (none, none) = some sprZ
  show (match scanTicks orsA cfgZ .put [tickA1, tickZ2] (none, none) with
    | Sum.inl spr => some spr
    | Sum.inr st2 => scanGroups orsA cfgZ .put [] st2) = some sprZ
  have hscan : scanTicks orsA cfgZ .put [tickA1, tickZ2] (none, none)
      = Sum.inl sprZ := by
    show (match processTick orsA cfgZ .put (none, none) tickA1 with
      | Sum.inl spr => Sum.inl spr
      | Sum.inr st2 => scanTicks orsA cfgZ .put [tickZ2] st2)
        = Sum.inl sprZ
    rw [hp1]
    show (match processTick orsA cfgZ .put (some legA1, none) tickZ2 with
      | Sum.inl spr => Sum.inl spr
      | Sum.inr st2 => scanTicks orsA cfgZ .put [] st2) = Sum.inl sprZ
    rw [hp2]
  rw [hscan]

/-! ## Claim C2 -/

/-- Counterexample to claim C2 as stated: with the width range
configured as `[0, 4]` and a stream quoting the same symbol `"A"` (same
strike) twice, `find_spread` returns a spread whose short and long legs
carry the same option symbol. -/
theorem C2_spread_counterexample :
    find_spread orsA cfgZ dataZ .put = some sprZ ∧
    sprZ.short_leg.option_symbol = sprZ.long_leg.option_symbol :=
  ⟨find_spread_dataZ, rfl⟩

/-- Claim C2 (amended): every spread returned by `find_spread` satisfies
`spread_width = |short.strike - long.strike|` with the width inside the
configured range (both ends inclusive), for every tick stream, oracle
behaviour and configuration; and — provided the configured minimum width
is positive and any two ticks sharing an option symbol carry the same
strike price — the two legs never carry the same option symbol. -/
theorem C2_spread_invariants (ors : Oracles) (cfg : SelectorConfig)
    (data : List (ℚ × List Tick)) (ty : OptionType) (spr : SpreadLegs)
    (h : find_spread ors cfg data ty = some spr) :
    spr.spread_width
      = |spr.short_leg.strike_price - spr.long_leg.strike_price| ∧
    cfg.spread_width_range.1 ≤ spr.spread_width ∧
    spr.spread_width ≤ cfg.spread_width_range.2 ∧
    (0 < cfg.spread_width_range.1 →
      (∀ t1 ∈ allTicks data, ∀ t2 ∈ allTicks data,
        t1.option_symbol = t2.option_symbol →
          t1.strike_price = t2.strike_price) →
      spr.short_leg.option_symbol ≠ spr.long_leg.option_symbol) := by
  unfold find_spread at h
  rw [scanGroups_eq_scanFlat] at h
  obtain ⟨hw, h1, h2⟩ := scanFlat_some_width h
  refine ⟨hw, h1, h2, fun hpos hcons => ?_⟩
  obtain ⟨hshort, hlong⟩ := scanFlat_some_legsFrom (fun t ht => ht)
    ⟨fun l hl => Option.noConfusion hl, fun l hl => Option.noConfusion hl⟩ h
  obtain ⟨t1, ht1, hs1, hk1⟩ := hshort
  obtain ⟨t2, ht2, hs2, hk2⟩ := hlong
  intro heq
  have hstrike : t1.strike_price = t2.strike_price :=
    hcons t1 ht1 t2 ht2 (by rw [← hs1, ← hs2, heq])
  have hzero : spr.spread_width = 0 := by
    rw [hw, hk1, hk2, hstrike, sub_self, abs_zero]
  linarith

theorem C2_spread_invariants_witness :
    sprA.spread_width
      = |sprA.short_leg.strike_price - sprA.long_leg.strike_price| ∧
    cfgA.spread_width_range.1 ≤ sprA.spread_width ∧
    sprA.spread_width ≤ cfgA.spread_width_range.2 ∧
    sprA.short_leg.option_symbol ≠ sprA.long_leg.option_symbol := by
  have h := C2_spread_invariants orsA cfgA dataA .put sprA find_spread_dataA
  refine ⟨h.1, h.2.1, h.2.2.1, h.2.2.2 (by norm_num [cfgA]) ?_⟩
  have hAT : allTicks dataA = [tickA1, tickA2] := rfl
  intro t1 ht1 t2 ht2 hsym
  rw [hAT] at ht1 ht2
  rcases List.mem_cons.mp ht1 with rfl | ht1b
  · rcases List.mem_cons.mp ht2 with rfl | ht2b
    · rfl
    · rcases List.mem_cons.mp ht2b with rfl | ht2c
      · exact absurd hsym (by decide)
      · exact absurd ht2c (by simp)
  · rcases List.mem_cons.mp ht1b with rfl | ht1c
    · rcases List.mem_cons.mp ht2 with rfl | ht2b
      · exact absurd hsym (by decide)
      · rcases List.mem_cons.mp ht2b with rfl | ht2c
        · rfl
        · exact absurd ht2c (by simp)
    · exact absurd ht1c (by simp)

/-! ## Claim C3 -/

/-- Claim C3: when the per-tick assignment leaves both candidate slots
populated and the computed width falls outside the configured range, the
scan discards both candidates — the tick's outcome is the empty/empty
state — and the scan of the remaining ticks proceeds from `(none, none)`,
so nothing of either discarded candidate influences later pairings. -/
theorem C3_full_reset (ors : Oracles) (cfg : SelectorConfig)
    (ty : OptionType) (st : ScanState) (t : Tick) (u delta : ℚ)
    (s l : OptionLeg) (rest : List Tick)
    (hu : t.underlying_close = some u)
    (hδ : calculate_delta ors t.midpoint t.strike_price t.expiry u
      cfg.risk_free_rate ty t.timestamp = some delta)
    (hassign : assignLeg cfg st t u delta = (some s, some l))
    (hw : ¬(cfg.spread_width_range.1 ≤ |s.strike_price - l.strike_price| ∧
      |s.strike_price - l.strike_price| ≤ cfg.spread_width_range.2)) :
    processTick ors cfg ty st t = Sum.inr (none, none) ∧
    scanFlat ors cfg ty (t :: rest) st
      = scanFlat ors cfg ty rest (none, none) := by
  have hp : processTick ors cfg ty st t = Sum.inr (none, none) := by
    refine processTick_eval hu hδ ?_
    rw [hassign]
    show (if cfg.spread_width_range.1 ≤ |s.strike_price - l.strike_price|
        ∧ |s.strike_price - l.strike_price| ≤ cfg.spread_width_range.2 then
        (Sum.inl ⟨s, l, s.option_price - l.option_price, t.timestamp,
          |s.strike_price - l.strike_price|⟩ : SpreadLegs ⊕ ScanState)
      else Sum.inr (none, none)) = Sum.inr (none, none)
    rw [if_neg hw]
  refine ⟨hp, ?_⟩
  show (match processTick ors cfg ty st t with
    | Sum.inl spr => some spr
    | Sum.inr st2 => scanFlat ors cfg ty rest st2) = _
  rw [hp]

theorem C3_full_reset_witness :
    processTick orsA cfgA .put (some legA1, none) tickW3
      = Sum.inr (none, none) ∧
    scanFlat orsA cfgA .put [tickW3] (some legA1, none)
      = scanFlat orsA cfgA .put [] (none, none) :=
  C3_full_reset orsA cfgA .put (some legA1, none) tickW3 600 (-(3/10))
    legA1 legW3 [] rfl (calculate_delta_orsA_quarter 400 (by norm_num))
    (by
      unfold assignLeg
      rw [if_neg (fun hc => Option.noConfusion hc.1),
        if_pos ⟨by norm_num [cfgA], by norm_num [cfgA]⟩]
      rfl)
    (by norm_num [cfgA, legA1, legW3])

/-! ## Claim C6 -/

/-- Counterexample to claim C6 as stated: on `dataA` the returned
spread's long leg is exactly the leg created from `tickA2`, whose
computed delta `-(3/10)` lies inside the short band *and* inside the
long band — a both-bands tick was assigned as the long leg (the short
slot being occupied at that point). -/
theorem C6_both_bands_counterexample :
    find_spread orsA cfgA dataA .put = some sprA ∧
    sprA.long_leg = mkLeg tickA2 600 (-(3/10)) ∧
    cfgA.short_put_delta_range.1 ≤ -(3/10) ∧
    -(3/10) ≤ cfgA.short_put_delta_range.2 ∧
    cfgA.long_put_delta_range.1 ≤ -(3/10) ∧
    -(3/10) ≤ cfgA.long_put_delta_range.2 ∧
    calculate_delta orsA tickA2.midpoint tickA2.strike_price tickA2.expiry
      600 cfgA.risk_free_rate .put tickA2.timestamp = some (-(3/10)) :=
  ⟨find_spread_dataA, rfl, by norm_num [cfgA], by norm_num [cfgA],
    by norm_num [cfgA], by norm_num [cfgA],
    calculate_delta_orsA_quarter 567 (by norm_num)⟩

/-- Claim C6 (amended): in the per-tick assignment, a tick whose delta
lies in both the short and the long band is assigned to the short slot
when that slot is empty; when the short slot is occupied, the same tick
is assigned as the long leg. -/
theorem C6_both_bands_amended (cfg : SelectorConfig) (st : ScanState)
    (t : Tick) (u delta : ℚ)
    (hs : cfg.short_put_delta_range.1 ≤ delta
      ∧ delta ≤ cfg.short_put_delta_range.2)
    (hl : cfg.long_put_delta_range.1 ≤ delta
      ∧ delta ≤ cfg.long_put_delta_range.2) :
    (st.1 = none →
      assignLeg cfg st t u delta = (some (mkLeg t u delta), st.2)) ∧
    (st.1 ≠ none →
      assignLeg cfg st t u delta = (st.1, some (mkLeg t u delta))) := by
  constructor
  · intro h1
    unfold assignLeg
    rw [if_pos ⟨h1, hs.1, hs.2⟩]
  · intro h1
    unfold assignLeg
    rw [if_neg (fun hc => h1 hc.1), if_pos hl]

theorem C6_both_bands_amended_witness :
    assignLeg cfgA (none, none) tickA2 600 (-(3/10))
      = (some (mkLeg tickA2 600 (-(3/10))), none) ∧
    assignLeg cfgA (some legA1, none) tickA2 600 (-(3/10))
      = (some legA1, some (mkLeg tickA2 600 (-(3/10)))) :=
  ⟨(C6_both_bands_amended cfgA (none, none) tickA2 600 (-(3/10))
      ⟨by norm_num [cfgA], by norm_num [cfgA]⟩
      ⟨by norm_num [cfgA], by norm_num [cfgA]⟩).1 rfl,
    (C6_both_bands_amended cfgA (some legA1, none) tickA2 600 (-(3/10))
      ⟨by norm_num [cfgA], by norm_num [cfgA]⟩
      ⟨by norm_num [cfgA], by norm_num [cfgA]⟩).2
      (fun hc => Option.noConfusion hc)⟩

/-! ## Claims C7 and C10: metrics availability and skipping -/

theorem monitorTrade_skip {ors : Oracles} {r tp dsl : ℚ}
    {spread : SpreadLegs} {ts : ℚ} {group : List Tick}
    {rest : List (ℚ × List Tick)}
    (hts : spread.entry_timestamp < ts)
    (hm : calculate_current_spread_metrics ors spread group r = none) :
    monitorTrade ors r tp dsl spread ((ts, group) :: rest)
      = monitorTrade ors r tp dsl spread rest := by
  show (if ts ≤ spread.entry_timestamp then
      monitorTrade ors r tp dsl spread rest
    else
      match calculate_current_spread_metrics ors spread group r with
      | none => monitorTrade ors r tp dsl spread rest
      | some m =>
        match check_exit_conditions spread m tp dsl with
        | none => monitorTrade ors r tp dsl spread rest
        | some er => some (er.status, er.theoretical_pnl, ts)) = _
  rw [if_neg (not_le.mpr hts), hm]

/-- Counterexample to claim C7 as stated: for the spread `sprW` (short
symbol `"A"`, long symbol `"B"`) and the tick group
`[tickL7, tickS7]`, both leg mid-prices are present and the long leg's
tick carries an underlying quote, yet the metrics computation returns
`none` and the timestamp is skipped — because the later short-leg tick
overwrites the already-found underlying quote with its own absent one.
So "skip iff a price is unavailable or no underlying is available from
either leg's tick" fails in the only-if direction. -/
theorem C7_skip_counterexample :
    calculate_current_spread_metrics ors0 sprW [tickL7, tickS7] 0 = none ∧
    tickS7.option_symbol = sprW.short_leg.option_symbol ∧
    tickS7.midpoint = 1 ∧
    tickL7.option_symbol = sprW.long_leg.option_symbol ∧
    tickL7.midpoint = 2/5 ∧
    tickL7.underlying_close = some 5 :=
  ⟨rfl, rfl, rfl, rfl, rfl, rfl⟩

/-- Claim C7 (amended): at a monitored timestamp, the Simulator scans
the tick group in order — a short-leg tick takes its mid-price and
overwrites the selected underlying with its own quote even when that
quote is absent, while a long-leg tick takes its mid-price and fills the
underlying only when it is still unset (`locatePrices`); the timestamp
is skipped (metrics `none`, so no exit is evaluated and no error is
raised, monitoring continuing with the next timestamp) if and only if
one of the three located values is missing or zero, or one of the two
recomputed leg deltas is unavailable. -/
theorem C7_skip_amended (ors : Oracles) (spread : SpreadLegs)
    (group : List Tick) (r : ℚ) :
    (calculate_current_spread_metrics ors spread group r = none ↔
      match locatePrices spread group (none, none, none) with
      | (some sp, some lp, some u) =>
        sp = 0 ∨ lp = 0 ∨ u = 0 ∨
        calculate_delta ors sp spread.short_leg.strike_price
          spread.short_leg.expiration_date u r .put (headTimestamp group)
            = none ∨
        calculate_delta ors lp spread.long_leg.strike_price
          spread.long_leg.expiration_date u r .put (headTimestamp group)
            = none
      | _ => True) ∧
    (∀ target_profit_price delta_stop_loss ts rest,
      spread.entry_timestamp < ts →
      calculate_current_spread_metrics ors spread group r = none →
      monitorTrade ors r target_profit_price delta_stop_loss spread
          ((ts, group) :: rest)
        = monitorTrade ors r target_profit_price delta_stop_loss spread
            rest) := by
  refine ⟨?_, fun tp dsl ts rest hts hm => monitorTrade_skip hts hm⟩
  unfold calculate_current_spread_metrics
  rcases hL : locatePrices spread group (none, none, none) with ⟨a, b, c⟩
  cases a with
  | none => exact iff_of_true rfl trivial
  | some sp =>
    cases b with
    | none => exact iff_of_true rfl trivial
    | some lp =>
      cases c with
      | none => exact iff_of_true rfl trivial
      | some u =>
        show (if sp = 0 ∨ lp = 0 ∨ u = 0 then none
            else match calculate_delta ors sp spread.short_leg.strike_price
                spread.short_leg.expiration_date u r .put
                (headTimestamp group),
              calculate_delta ors lp spread.long_leg.strike_price
                spread.long_leg.expiration_date u r .put
                (headTimestamp group) with
            | some sd, some ld =>
              some (⟨sp - lp, sp, lp, u, sd, ld, |sd| - |ld|,
                headTimestamp group⟩ : SpreadMetrics)
            | _, _ => none) = none ↔
          (sp = 0 ∨ lp = 0 ∨ u = 0 ∨
            calculate_delta ors sp spread.short_leg.strike_price
              spread.short_leg.expiration_date u r .put
              (headTimestamp group) = none ∨
            calculate_delta ors lp spread.long_leg.strike_price
              spread.long_leg.expiration_date u r .put
              (headTimestamp group) = none)
        by_cases hz : sp = 0 ∨ lp = 0 ∨ u = 0
        · rw [if_pos hz]
          exact iff_of_true rfl (by tauto)
        · rw [if_neg hz]
          cases hd1 : calculate_delta ors sp spread.short_leg.strike_price
              spread.short_leg.expiration_date u r .put
              (headTimestamp group) with
          | none =>
            refine iff_of_true rfl ?_
            exact Or.inr (Or.inr (Or.inr (Or.inl rfl)))
          | some sd =>
            cases hd2 : calculate_delta ors lp spread.long_leg.strike_price
                spread.long_leg.expiration_date u r .put
                (headTimestamp group) with
            | none =>
              refine iff_of_true rfl ?_
              exact Or.inr (Or.inr (Or.inr (Or.inr rfl)))
            | some ld =>
              refine iff_of_false (fun h => Option.noConfusion h) ?_
              rintro (h | h | h | h | h)
              · exact hz (Or.inl h)
              · exact hz (Or.inr (Or.inl h))
              · exact hz (Or.inr (Or.inr h))
              · exact Option.noConfusion h
              · exact Option.noConfusion h

theorem C7_skip_amended_witness :
    monitorTrade ors0 0 1 1 sprW [(60, [tickL7, tickS7])]
      = monitorTrade ors0 0 1 1 sprW [] :=
  (C7_skip_amended ors0 sprW [tickL7, tickS7] 0).2 1 1 60 []
    (by norm_num [sprW]) rfl

/-- Claim C10: when the located short mid-price, long mid-price or
selected underlying price is present but exactly `0`, the truthiness
test `if not all([...])` treats it as unavailable: the metrics
computation returns `none`, the timestamp is skipped with no exit
condition evaluated, and monitoring continues at the next timestamp —
so no exit can ever fire at a timestamp where one of these three values
is exactly zero. -/
theorem C10_zero_price_skip (ors : Oracles) (spread : SpreadLegs)
    (group : List Tick) (r sp lp u : ℚ)
    (hloc : locatePrices spread group (none, none, none)
      = (some sp, some lp, some u))
    (hzero : sp = 0 ∨ lp = 0 ∨ u = 0) :
    calculate_current_spread_metrics ors spread group r = none ∧
    (∀ target_profit_price delta_stop_loss ts rest,
      spread.entry_timestamp < ts →
      monitorTrade ors r target_profit_price delta_stop_loss spread
          ((ts, group) :: rest)
        = monitorTrade ors r target_profit_price delta_stop_loss spread
            rest) := by
  have hm : calculate_current_spread_metrics ors spread group r = none := by
    unfold calculate_current_spread_metrics
    rw [hloc]
    show (if sp = 0 ∨ lp = 0 ∨ u = 0 then none else _) = none
    rw [if_pos hzero]
  exact ⟨hm, fun tp dsl ts rest hts => monitorTrade_skip hts hm⟩

theorem C10_zero_price_skip_witness :
    calculate_current_spread_metrics ors0 sprW [tickS10, tickL10] 0 = none ∧
    monitorTrade ors0 0 1 1 sprW [(60, [tickS10, tickL10])]
      = monitorTrade ors0 0 1 1 sprW [] := by
  have h := C10_zero_price_skip ors0 sprW [tickS10, tickL10] 0 0 (2/5) 600
    rfl (Or.inl rfl)
  exact ⟨h.1, h.2 1 1 60 [] (by norm_num [sprW])⟩

/-! ## Claim C8 -/

theorem find_spread_entry {ors : Oracles} {cfg : SelectorConfig}
    {data : List (ℚ × List Tick)} {ty : OptionType} {spr : SpreadLegs}
    (h : find_spread ors cfg data ty = some spr) :
    ∃ g ∈ data, ∃ t ∈ g.2, spr.entry_timestamp = t.timestamp := by
  unfold find_spread at h
  rw [scanGroups_eq_scanFlat] at h
  obtain ⟨t, ht, hent⟩ := scanFlat_some_entry h
  simp only [allTicks, List.mem_flatten, List.mem_map] at ht
  obtain ⟨l, ⟨g, hg, rfl⟩, htl⟩ := ht
  exact ⟨g, hg, t, htl, hent⟩

theorem execute_single_trade_entry {ors : Oracles} {bt : BacktesterConfig}
    {filtered : List (ℚ × List Tick)} {out : TradeOutcome}
    (h : execute_single_trade ors bt filtered = some out)
    (hg : Grouped filtered) :
    ∃ g ∈ filtered, out.entry_time = g.1 := by
  unfold execute_single_trade at h
  cases hf : find_spread ors bt.selector filtered .put with
  | none =>
    rw [hf] at h
    exact Option.noConfusion h
  | some spread =>
    rw [hf] at h
    have h3 : (match monitorTrade ors bt.risk_free_rate
        (spread.credit_received * bt.target_profit_percentage)
        (spread.initial_total_delta * bt.delta_stop_loss_multiplier)
        spread filtered with
      | some (st, pnl, exit_ts) =>
        some (⟨st, pnl, spread.short_leg.option_symbol,
          spread.long_leg.option_symbol, spread.entry_timestamp, exit_ts,
          spread.credit_received, spread.spread_width⟩ : TradeOutcome)
      | none =>
        some ⟨.expired, spread.credit_received * 100,
          spread.short_leg.option_symbol, spread.long_leg.option_symbol,
          spread.entry_timestamp, maxKey filtered, spread.credit_received,
          spread.spread_width⟩) = some out := h
    have hent : out.entry_time = spread.entry_timestamp := by
      cases hm : monitorTrade ors bt.risk_free_rate
          (spread.credit_received * bt.target_profit_percentage)
          (spread.initial_total_delta * bt.delta_stop_loss_multiplier)
          spread filtered with
      | none =>
        rw [hm] at h3
        have h2 := Option.some.inj h3
        rw [← h2]
      | some p =>
        rw [hm] at h3
        obtain ⟨st, pnl, xt⟩ := p
        have h2 := Option.some.inj h3
        rw [← h2]
    obtain ⟨g, hgm, t, htm, hts⟩ := find_spread_entry hf
    exact ⟨g, hgm, by rw [hent, hts, hg g hgm t htm]⟩

theorem runAux_head {ors : Oracles} {bt : BacktesterConfig}
    {data : List (ℚ × List Tick)} {fuel : ℕ} {cursor : ℚ}
    {out : TradeOutcome} (hg : Grouped data)
    (h : (runAux ors bt data fuel cursor).head? = some out) :
    cursor ≤ out.entry_time := by
  cases fuel with
  | zero => exact Option.noConfusion h
  | succ n =>
    have h2 : (if (data.filter fun g => decide (cursor ≤ g.1)).isEmpty then
        ([] : List TradeOutcome)
      else
        match execute_single_trade ors bt
            (data.filter fun g => decide (cursor ≤ g.1)) with
        | none => []
        | some o => o :: runAux ors bt data n (o.exit_time + 60)).head?
          = some out := h
    split at h2
    · exact Option.noConfusion h2
    · cases hx : execute_single_trade ors bt
          (data.filter fun g => decide (cursor ≤ g.1)) with
      | none =>
        rw [hx] at h2
        exact Option.noConfusion h2
      | some o =>
        rw [hx] at h2
        have ho := Option.some.inj (h2 : some o = some out)
        subst ho
        have hgF : Grouped (data.filter fun g => decide (cursor ≤ g.1)) :=
          fun g hgm t htm => hg g (List.mem_of_mem_filter hgm) t htm
        obtain ⟨g, hgm, hent⟩ := execute_single_trade_entry hx hgF
        have hdec : decide (cursor ≤ g.1) = true := (List.mem_filter.mp hgm).2
        rw [hent]
        exact of_decide_eq_true hdec

theorem runAux_chain (ors : Oracles) (bt : BacktesterConfig)
    (data : List (ℚ × List Tick)) (hg : Grouped data) :
    ∀ fuel cursor, List.Chain' (fun a b => a.exit_time < b.entry_time)
      (runAux ors bt data fuel cursor)
  | 0, _ => List.chain'_nil
  | fuel + 1, cursor => by
    show List.Chain' _
      (if (data.filter fun g => decide (cursor ≤ g.1)).isEmpty then
        ([] : List TradeOutcome)
      else
        match execute_single_trade ors bt
            (data.filter fun g => decide (cursor ≤ g.1)) with
        | none => []
        | some o => o :: runAux ors bt data fuel (o.exit_time + 60))
    split
    · exact List.chain'_nil
    · cases hx : execute_single_trade ors bt
          (data.filter fun g => decide (cursor ≤ g.1)) with
      | none => exact List.chain'_nil
      | some o =>
        refine List.chain'_cons'.mpr
          ⟨?_, runAux_chain ors bt data hg fuel (o.exit_time + 60)⟩
        intro y hy
        have hle := runAux_head hg
          (hy : (runAux ors bt data fuel (o.exit_time + 60)).head? = some y)
        linarith

/-- Claim C8: for every outcome sequence of `run` on well-grouped data
(each tick's own timestamp equals its group key, the §6 input contract),
consecutive trades are disjoint in time: each trade's `entry_time` is
strictly greater than the previous trade's `exit_time` — after each
completed trade the cursor advances to `exit_time` plus one minute
(60 seconds) and the next search only sees groups at or after the
cursor. -/
theorem C8_disjoint_trades (ors : Oracles) (bt : BacktesterConfig)
    (data : List (ℚ × List Tick)) (max_iterations : ℕ)
    (hg : Grouped data) :
    List.Chain' (fun a b => a.exit_time < b.entry_time)
      (run ors bt data max_iterations) := by
  unfold run
  split
  · exact List.chain'_nil
  · exact runAux_chain ors bt data hg max_iterations (minKey data)

theorem C8_disjoint_trades_witness :
    List.Chain' (fun a b => a.exit_time < b.entry_time)
      (run ors0 ⟨cfgA, 0, 1, 1⟩ [(0, [])] 5) :=
  C8_disjoint_trades ors0 ⟨cfgA, 0, 1, 1⟩ [(0, [])] 5
    (by
      intro g hgm t htm
      rcases List.mem_cons.mp hgm with rfl | hbad
      · exact absurd htm (List.not_mem_nil t)
      · exact absurd hbad (List.not_mem_nil g))

end Backtest
